import Mathlib

/-
Verification of the task-resolution engine of rnr.cli (src/config.rs and
src/runner.rs) against its natural-language specification.

Shallow embedding notes:
* Directory paths are modelled as lists of components (`Path`); `Path::join`
  with a relative segment is `path_join`.
* The environment map handed to a spawned child (`Command::envs`) is an
  association list `EnvMap`; the ambient host process environment, which every
  child inherits underneath that overlay, is not part of the model.
* File-system facts the engine consults (which directories hold an `rnr.yaml`
  and what document it parses to) are a lookup table `FS`; a directory whose
  file exists-and-parses maps to `some config`.
* Child processes are an oracle `String → Path → EnvMap → ProcessOutcome`
  fixed for the run; `ProcessOutcome` mirrors `std::process::ExitStatus`
  (`exited (some c)` = exit code `c`, `exited none` = signal-terminated,
  `success()` = code `Some(0)`).
* Executing produces the ordered list of attempted command invocations (the
  observable trace) together with `Except ExecError Unit`, mirroring
  `anyhow::Result<()>`.
* Recursive delegation (`execute_task_def` → ... → `execute_task_def`) is not
  structurally terminating in the source, so the interpreter is fuel-indexed:
  exactly the entry point `execute_task_def` consumes one unit of fuel,
  returning `none` ("still running") when the fuel is exhausted.  All other
  functions thread the fuel through unchanged, exactly as the source threads
  its call stack.
-/

namespace Rnr

/-- A directory path, as its list of components. -/
abbrev Path := List String

/-- The explicit environment overlay passed to spawned children
(`HashMap<String, String>` in the source). -/
abbrev EnvMap := List (String × String)

/-- Model of `Path::join` with one relative segment (runner.rs uses
`project_root.join(dir)`). -/
def path_join (p : Path) (d : String) : Path := p ++ [d]

/-- `StepDef` from src/config.rs lines 55-64: optional dir, cmd, task. -/
structure StepDef where
  dir : Option String
  cmd : Option String
  task : Option String
  deriving DecidableEq

/-- `Step` from src/config.rs lines 45-50: a simple step or a parallel block. -/
inductive Step where
  | simple (s : StepDef)
  | parallel (ps : List StepDef)
  deriving DecidableEq

/-- `Task` from src/config.rs lines 22-40: full task definition. -/
structure Task where
  description : Option String
  dir : Option String
  env : Option EnvMap
  cmd : Option String
  task : Option String
  steps : Option (List Step)
  deriving DecidableEq

/-- `TaskDef` from src/config.rs lines 13-18: shorthand command or full task. -/
inductive TaskDef where
  | shorthand (cmd : String)
  | full (t : Task)
  deriving DecidableEq

/-- `Config` from src/config.rs lines 68-71: map from task name to definition
(`HashMap` with unique keys, modelled as an association list). -/
structure Config where
  tasks : List (String × TaskDef)
  deriving DecidableEq

/-- `Config::get_task` (src/config.rs lines 92-94). -/
def Config.get_task (c : Config) (name : String) : Option TaskDef :=
  (c.tasks.find? (fun p => p.1 == name)).map Prod.snd

/-- `Config::task_names` (src/config.rs lines 97-101): collect the keys and
sort them (`names.sort()`; keys are unique, so any correct sort of strings
yields the same list as Rust's stable sort). -/
def Config.task_names (c : Config) : List String :=
  List.insertionSort (fun a b => a ≤ b) (c.tasks.map Prod.fst)

/-- Outcome of attempting to run one child process. -/
inductive ProcessOutcome where
  | spawnFailed
  | exited (code : Option Nat)
  deriving DecidableEq

/-- One attempted command invocation: the command string, the working
directory given to the child, and the explicit environment overlay. -/
structure Invocation where
  cmd : String
  dir : Path
  env : EnvMap
  deriving DecidableEq

/-- The error cases produced by runner.rs / config.rs (`anyhow` messages
mapped to a closed taxonomy). -/
inductive ExecError where
  | noConfigFound
  | taskNotFound (name : String)
  | taskNotFoundIn (name : String) (path : Path)
  | noActionTask
  | noActionStep
  | spawnFailed (cmd : String)
  | commandFailed (exitCode : Nat)
  | parallelFailed (errors : List ExecError)

/-- Result of a run: the trace of attempted invocations plus ok or error. -/
abbrev RunResult := List Invocation × Except ExecError Unit

/-- File-system model: which directories contain an `rnr.yaml` that loads
successfully, and the document it holds. -/
structure FS where
  configs : List (Path × Config)

/-- Probe-and-load at a directory: models `dir.join(CONFIG_FILE).exists()`
followed by `Config::load_from`. -/
def FS.configAt (fs : FS) (p : Path) : Option Config :=
  (fs.configs.find? (fun q => q.1 == p)).map Prod.snd

/-- Values fixed for the duration of one run: the file system, the result of
`crate::config::project_root()` (derived from the process's unchanging current
directory, see src/config.rs lines 105-134), and the child-process oracle. -/
structure Globals where
  fs : FS
  topRoot : Path
  oracle : String → Path → EnvMap → ProcessOutcome

/-- `execute_command` (src/runner.rs lines 176-202): record the invocation
(the `println!` + spawn attempt), then map the outcome: spawn failure is its
own error; `status.success()` (exit code 0) is ok; otherwise the exit code, or
1 when the status carries none (`status.code().unwrap_or(1)`). -/
def execute_command (oracle : String → Path → EnvMap → ProcessOutcome)
    (cmd : String) (work_dir : Path) (env : EnvMap) : RunResult :=
  (⟨cmd, work_dir, env⟩ :: [],
    match oracle cmd work_dir env with
    | .spawnFailed => .error (.spawnFailed cmd)
    | .exited code => if code = some 0 then .ok () else .error (.commandFailed (code.getD 1)))

/-- Errors extracted from a list of per-step results, in list order (models
the mutex-guarded error vector of `execute_parallel`). -/
def step_errors (rs : List RunResult) : List ExecError :=
  rs.filterMap (fun r => match r.2 with | .error e => some e | .ok _ => none)

/-- Body of `execute_step_def` (src/runner.rs lines 128-173), parameterised by
`recur`, the recursive entry `execute_task_def` at the current fuel.  Note the
source resolves a step's `dir` against `crate::config::project_root()` (the
top-level root derived from the process cwd), not against the in-scope
document root, and the same-document delegation fallback again passes
`project_root()`. -/
def go_execute_step_def (recur : TaskDef → Path → Config → Option RunResult)
    (g : Globals) (step_def : StepDef) (default_dir : Path) (default_env : EnvMap)
    (config : Config) : Option RunResult :=
  let work_dir := match step_def.dir with
    | some d => path_join g.topRoot d
    | none => default_dir
  match step_def.task with
  | some task_name =>
    match step_def.dir, g.fs.configAt work_dir with
    | some _, some nested_config =>
      match nested_config.get_task task_name with
      | some nested_task => recur nested_task work_dir nested_config
      | none => some ([], .error (.taskNotFoundIn task_name work_dir))
    | _, _ =>
      match config.get_task task_name with
      | some target_task => recur target_task g.topRoot config
      | none => some ([], .error (.taskNotFound task_name))
  | none =>
    match step_def.cmd with
    | some cmd => some (execute_command g.oracle cmd work_dir default_env)
    | none => some ([], .error .noActionStep)

/-- Per-step results of a parallel block: every step is executed (the scoped
threads of src/runner.rs lines 103-111 all run to completion), results
collected positionally. -/
def go_execute_parallel_steps (recur : TaskDef → Path → Config → Option RunResult)
    (g : Globals) (steps : List StepDef) (default_dir : Path) (default_env : EnvMap)
    (config : Config) : Option (List RunResult) :=
  match steps with
  | [] => some []
  | sd :: rest =>
    match go_execute_step_def recur g sd default_dir default_env config,
          go_execute_parallel_steps recur g rest default_dir default_env config with
    | some r, some rs => some (r :: rs)
    | _, _ => none

/-- Body of `execute_parallel` (src/runner.rs lines 92-125): run every step,
then succeed when no errors were collected, else aggregate them all into one
`parallelFailed`. -/
def go_execute_parallel (recur : TaskDef → Path → Config → Option RunResult)
    (g : Globals) (steps : List StepDef) (default_dir : Path) (default_env : EnvMap)
    (config : Config) : Option RunResult :=
  match go_execute_parallel_steps recur g steps default_dir default_env config with
  | none => none
  | some rs =>
    let errs := step_errors rs
    some ((rs.map Prod.fst).flatten,
      if errs.isEmpty then .ok () else .error (.parallelFailed errs))

/-- Body of `execute_step` (src/runner.rs lines 79-89). -/
def go_execute_step (recur : TaskDef → Path → Config → Option RunResult)
    (g : Globals) (s : Step) (default_dir : Path) (default_env : EnvMap)
    (config : Config) : Option RunResult :=
  match s with
  | .simple step_def => go_execute_step_def recur g step_def default_dir default_env config
  | .parallel steps => go_execute_parallel recur g steps default_dir default_env config

/-- The step loop of `execute_full_task` (src/runner.rs lines 38-43):
`for step in steps { execute_step(..)? }` — run in order, abort at the first
error, concatenating the traces. -/
def go_execute_steps (recur : TaskDef → Path → Config → Option RunResult)
    (g : Globals) (steps : List Step) (work_dir : Path) (env : EnvMap)
    (config : Config) : Option RunResult :=
  match steps with
  | [] => some ([], .ok ())
  | s :: rest =>
    match go_execute_step recur g s work_dir env config with
    | none => none
    | some (tr, .error e) => some (tr, .error e)
    | some (tr, .ok _) =>
      match go_execute_steps recur g rest work_dir env config with
      | none => none
      | some (tr2, r) => some (tr ++ tr2, r)

/-- Body of `execute_full_task` (src/runner.rs lines 29-76): compute the work
directory and the task's env map, then: steps if present; else delegation
(probing `work_dir/rnr.yaml` only when `dir` was given, re-rooting there on a
hit, otherwise looking up in the current config with the *current root*
passed on); else the command; else the no-action error. -/
def go_execute_full_task (recur : TaskDef → Path → Config → Option RunResult)
    (g : Globals) (t : Task) (project_root : Path) (config : Config) : Option RunResult :=
  let work_dir := match t.dir with
    | some d => path_join project_root d
    | none => project_root
  let env := t.env.getD []
  match t.steps with
  | some steps => go_execute_steps recur g steps work_dir env config
  | none =>
    match t.task with
    | some task_name =>
      match t.dir, g.fs.configAt work_dir with
      | some _, some nested_config =>
        match nested_config.get_task task_name with
        | some nested_task => recur nested_task work_dir nested_config
        | none => some ([], .error (.taskNotFoundIn task_name work_dir))
      | _, _ =>
        match config.get_task task_name with
        | some target_task => recur target_task project_root config
        | none => some ([], .error (.taskNotFound task_name))
    | none =>
      match t.cmd with
      | some cmd => some (execute_command g.oracle cmd work_dir env)
      | none => some ([], .error .noActionTask)

/-- `execute_task_def` (src/runner.rs lines 21-26), fuel-indexed: a shorthand
runs its command at the current root with an empty env overlay; a full task
runs `execute_full_task`.  `none` means the fuel ran out, i.e. the source
would still be recursing at that depth. -/
def execute_task_def (g : Globals) : Nat → TaskDef → Path → Config → Option RunResult
  | 0, _, _, _ => none
  | fuel + 1, td, project_root, config =>
    match td with
    | .shorthand cmd => some (execute_command g.oracle cmd project_root [])
    | .full t =>
      go_execute_full_task
        (fun td2 root2 cfg2 => execute_task_def g fuel td2 root2 cfg2)
        g t project_root config

/-- `execute_full_task` at a given fuel. -/
def execute_full_task (g : Globals) (fuel : Nat) (t : Task) (project_root : Path)
    (config : Config) : Option RunResult :=
  go_execute_full_task (fun td root cfg => execute_task_def g fuel td root cfg)
    g t project_root config

/-- The step loop of `execute_full_task` at a given fuel. -/
def execute_steps (g : Globals) (fuel : Nat) (steps : List Step) (work_dir : Path)
    (env : EnvMap) (config : Config) : Option RunResult :=
  go_execute_steps (fun td root cfg => execute_task_def g fuel td root cfg)
    g steps work_dir env config

/-- `execute_step` at a given fuel. -/
def execute_step (g : Globals) (fuel : Nat) (s : Step) (default_dir : Path)
    (default_env : EnvMap) (config : Config) : Option RunResult :=
  go_execute_step (fun td root cfg => execute_task_def g fuel td root cfg)
    g s default_dir default_env config

/-- `execute_parallel` at a given fuel. -/
def execute_parallel (g : Globals) (fuel : Nat) (steps : List StepDef)
    (default_dir : Path) (default_env : EnvMap) (config : Config) : Option RunResult :=
  go_execute_parallel (fun td root cfg => execute_task_def g fuel td root cfg)
    g steps default_dir default_env config

/-- Per-step results of `execute_parallel` at a given fuel. -/
def execute_parallel_steps (g : Globals) (fuel : Nat) (steps : List StepDef)
    (default_dir : Path) (default_env : EnvMap) (config : Config) : Option (List RunResult) :=
  go_execute_parallel_steps (fun td root cfg => execute_task_def g fuel td root cfg)
    g steps default_dir default_env config

/-- `execute_step_def` at a given fuel. -/
def execute_step_def (g : Globals) (fuel : Nat) (step_def : StepDef) (default_dir : Path)
    (default_env : EnvMap) (config : Config) : Option RunResult :=
  go_execute_step_def (fun td root cfg => execute_task_def g fuel td root cfg)
    g step_def default_dir default_env config

/-- `find_config_file` composed with `.parent()`, i.e. `project_root()`
(src/config.rs lines 105-134): walk up from the given directory to the first
directory whose `rnr.yaml` exists, returning that directory. -/
def find_config_root (fs : FS) (p : Path) : Option Path :=
  if (fs.configAt p).isSome then some p
  else
    match p with
    | [] => none
    | a :: rest => find_config_root fs (a :: rest).dropLast
termination_by p.length
decreasing_by simp [List.length_dropLast]

/-- `run_task` (src/runner.rs lines 9-18): load the config found by walking up
from the current directory, take its parent directory as project root, look the
task up, and execute it. -/
def run_task (fs : FS) (oracle : String → Path → EnvMap → ProcessOutcome)
    (fuel : Nat) (cwd : Path) (task_name : String) : Option RunResult :=
  match find_config_root fs cwd with
  | none => some ([], .error .noConfigFound)
  | some root =>
    match fs.configAt root with
    | none => some ([], .error .noConfigFound)
    | some config =>
      match config.get_task task_name with
      | some td => execute_task_def ⟨fs, root, oracle⟩ fuel td root config
      | none => some ([], .error (.taskNotFound task_name))

/-! Concrete fixtures used by counterexamples and witnesses. -/

/-- Oracle under which every child process exits with code 0. -/
def okOracle : String → Path → EnvMap → ProcessOutcome := fun _ _ _ => .exited (some 0)

/-- Globals with an empty file system, top root at the file-system root, and
all commands succeeding. -/
def gOk : Globals := ⟨⟨[]⟩, [], okOracle⟩

/-- Document for C1: task `a` has a present-but-empty `steps` list *and* a
delegation `task: b`; `b` is a shorthand for command `c`. -/
def cfgC1 : Config :=
  ⟨[("a", .full ⟨none, none, none, none, some "b", some []⟩), ("b", .shorthand "c")]⟩

/-- Document for C2: `a` sets `dir: sub` and `task: b`; `b` runs command `c`;
no nested document exists anywhere. -/
def cfgC2 : Config :=
  ⟨[("a", .full ⟨none, some "sub", none, none, some "b", none⟩),
    ("b", .full ⟨none, none, none, some "c", none, none⟩)]⟩

/-- Document pair for C2's witness: the top document delegates into `sub`
(where a nested document defines `b`) and also from `nosub` (where none
exists). -/
def cfgC2nested : Config := ⟨[("b", .full ⟨none, none, none, some "cn", none, none⟩)]⟩

/-- Top-level document for C2's witness. -/
def cfgC2top : Config :=
  ⟨[("a", .full ⟨none, some "sub", none, none, some "b", none⟩),
    ("a2", .full ⟨none, some "nosub", none, none, some "b", none⟩),
    ("b", .full ⟨none, none, none, some "c", none, none⟩)]⟩

/-- Globals for C2's witness: one nested document, at `sub`. -/
def gC2 : Globals := ⟨⟨[(["sub"], cfgC2nested)]⟩, [], okOracle⟩

/-- Document for C3: `a` carries `env: {X: 1}` and delegates to `b`, which
runs command `c` with no env of its own. -/
def cfgC3 : Config :=
  ⟨[("a", .full ⟨none, none, some [("X", "1")], none, some "b", none⟩),
    ("b", .full ⟨none, none, none, some "c", none, none⟩)]⟩

/-- Nested document for C6: defines `t`, whose step sets `dir: d`. -/
def cfgC6nested : Config :=
  ⟨[("t", .full ⟨none, none, none, none, none,
      some [.simple ⟨some "d", some "c", none⟩]⟩)]⟩

/-- Top document for C6: `a` re-roots into the nested document at `sub`. -/
def cfgC6top : Config :=
  ⟨[("a", .full ⟨none, some "sub", none, none, some "t", none⟩)]⟩

/-- Globals for C6: nested document at `sub`, top root `[]`. -/
def gC6 : Globals := ⟨⟨[(["sub"], cfgC6nested)]⟩, [], okOracle⟩

/-- File system for C8: the only `rnr.yaml` lives at `p`, defining shorthand
task `a`. -/
def fsC8 : FS := ⟨[(["p"], ⟨[("a", .shorthand "c")]⟩)]⟩

/-- Self-delegating task for C10: `task: a` with no `dir`. -/
def self_task : Task := ⟨none, none, none, none, some "a", none⟩

/-- Document for C10 mapping `a` to the self-delegating task. -/
def cfg_self : Config := ⟨[("a", .full self_task)]⟩

/-! Claim theorems. -/

/-- C1 (counterexample): the action is *not* chosen by "first non-empty field".
Task `a` of `cfgC1` has a present-but-empty `steps: []` next to `task: b`; under
the claim the empty steps list would yield to the delegation, so command `c`
would run — but the code executes the empty steps list and returns success with
no invocation at all.  The second conjunct shows the very same task with
`steps` absent does run `c` through the delegation. -/
theorem C1_counterexample :
    execute_task_def gOk 5 (.full ⟨none, none, none, none, some "b", some []⟩) [] cfgC1 =
      some ([], .ok ())
    ∧ execute_task_def gOk 5 (.full ⟨none, none, none, none, some "b", none⟩) [] cfgC1 =
      some ([⟨"c", [], []⟩], .ok ()) := by
  exact ⟨rfl, rfl⟩

/-- C1 (amended): the action of a Full task is determined by field *presence*
in the priority order `steps` > `task` > `cmd`: if `steps` is set (even to an
empty list) it is executed and `task`/`cmd` are ignored; else if `task` is set
the delegation runs and `cmd` is ignored; else if `cmd` is set the command runs
in the computed directory with the task's env map.  Identically for a Simple
step with its priority order `task` > `cmd`. -/
theorem C1_action_priority_by_presence (g : Globals) (fuel : Nat)
    (ds dd : Option String) (e : Option EnvMap) (c nm : Option String)
    (ss : List Step) (nm2 cc : String) (root : Path) (env2 : EnvMap) (cfg : Config) :
    (execute_full_task g fuel ⟨ds, dd, e, c, nm, some ss⟩ root cfg =
      execute_full_task g fuel ⟨ds, dd, e, none, none, some ss⟩ root cfg)
    ∧ (execute_full_task g fuel ⟨ds, dd, e, c, some nm2, none⟩ root cfg =
      execute_full_task g fuel ⟨ds, dd, e, none, some nm2, none⟩ root cfg)
    ∧ (execute_full_task g fuel ⟨ds, dd, e, some cc, none, none⟩ root cfg =
      some (execute_command g.oracle cc
        (match dd with | some d => path_join root d | none => root) (e.getD [])))
    ∧ (execute_step_def g fuel ⟨dd, c, some nm2⟩ root env2 cfg =
      execute_step_def g fuel ⟨dd, none, some nm2⟩ root env2 cfg)
    ∧ (execute_step_def g fuel ⟨dd, some cc, none⟩ root env2 cfg =
      some (execute_command g.oracle cc
        (match dd with | some d => path_join g.topRoot d | none => root) env2)) := by
  refine ⟨?_, ?_, ?_, ?_, ?_⟩ <;>
    simp [execute_full_task, go_execute_full_task, execute_step_def, go_execute_step_def]

/-- C3 (counterexample): environment inheritance across delegation does not
exist.  In `cfgC3`, task `a` carries `env: {X: 1}` and delegates to `b`; the
claim says `b`'s command runs with the merged environment containing `X=1`, but
the code runs it with an empty env overlay — the delegating task's env map is
dropped. -/
theorem C3_counterexample :
    execute_task_def gOk 5 (.full ⟨none, none, some [("X", "1")], none, some "b", none⟩)
      [] cfgC3 = some ([⟨"c", [], []⟩], .ok ())
    ∧ ([] : EnvMap) ≠ [("X", "1")] := by
  exact ⟨rfl, by decide⟩

/-- C3 (amended): delegation passes no environment at all — the behaviour of a
delegating Full task is independent of its own `env` map, and a task's command
runs with exactly the task's own `env` map as the overlay (the inherited host
process environment stays visible underneath only because `Command::envs`
overlays rather than replaces; there is no cross-task merging). -/
theorem C3_env_dropped_on_delegation (g : Globals) (fuel : Nat)
    (ds dd : Option String) (e1 e2 : Option EnvMap) (c : Option String) (nm : String)
    (root : Path) (cfg : Config) (e3 : EnvMap) (cc : String) :
    (execute_full_task g fuel ⟨ds, dd, e1, c, some nm, none⟩ root cfg =
      execute_full_task g fuel ⟨ds, dd, e2, c, some nm, none⟩ root cfg)
    ∧ (execute_full_task g fuel ⟨ds, none, some e3, some cc, none, none⟩ root cfg =
      some (execute_command g.oracle cc root e3)) := by
  constructor <;> simp [execute_full_task, go_execute_full_task]

/-- C6 (counterexample): inside a nested document, a step's relative `dir` is
*not* rebased against the nested document's root.  Top task `a` re-roots into
the document at `sub`, whose task `t` has a step with `dir: d`; the claim says
the command runs in `sub/d`, but the code resolves `d` against the top-level
project root and runs it in `d`. -/
theorem C6_counterexample :
    execute_task_def gC6 5 (.full ⟨none, some "sub", none, none, some "t", none⟩) [] cfgC6top =
      some ([⟨"c", ["d"], []⟩], .ok ())
    ∧ (["d"] : Path) ≠ ["sub", "d"] := by
  exact ⟨rfl, by decide⟩

/-- C6 (amended): a step's relative `dir` is always resolved against the
top-level project root (re-derived from the process's current directory by
`project_root()`), regardless of the default directory handed down and of the
document currently in scope. -/
theorem C6_step_dir_resolved_at_top_root (g : Globals) (fuel : Nat) (d cc : String)
    (dd1 dd2 : Path) (env : EnvMap) (cfg1 cfg2 : Config) :
    execute_step_def g fuel ⟨some d, some cc, none⟩ dd1 env cfg1 =
      some (execute_command g.oracle cc (path_join g.topRoot d) env)
    ∧ execute_step_def g fuel ⟨some d, some cc, none⟩ dd1 env cfg1 =
      execute_step_def g fuel ⟨some d, some cc, none⟩ dd2 env cfg2 := by
  constructor <;> simp [execute_step_def, go_execute_step_def]

/-- C7: mapping of a child's outcome, for every invoked command: exit code 0 is
success; a non-zero exit code `n` yields `commandFailed n`; a signal-terminated
status with no exit code yields `commandFailed 1`; failure to start the process
yields the distinct `spawnFailed` error, which is never equal to any
`commandFailed`. -/
theorem C7_exit_status_mapping (oracle : String → Path → EnvMap → ProcessOutcome)
    (cmd : String) (work_dir : Path) (env : EnvMap) :
    (oracle cmd work_dir env = .exited (some 0) →
      execute_command oracle cmd work_dir env = ([⟨cmd, work_dir, env⟩], .ok ()))
    ∧ (∀ n : Nat, oracle cmd work_dir env = .exited (some (n + 1)) →
      execute_command oracle cmd work_dir env =
        ([⟨cmd, work_dir, env⟩], .error (.commandFailed (n + 1))))
    ∧ (oracle cmd work_dir env = .exited none →
      execute_command oracle cmd work_dir env =
        ([⟨cmd, work_dir, env⟩], .error (.commandFailed 1)))
    ∧ (oracle cmd work_dir env = .spawnFailed →
      execute_command oracle cmd work_dir env =
        ([⟨cmd, work_dir, env⟩], .error (.spawnFailed cmd)))
    ∧ (∀ m : Nat, ExecError.spawnFailed cmd ≠ .commandFailed m) := by
  refine ⟨?_, ?_, ?_, ?_, ?_⟩
  · intro h; simp [execute_command, h]
  · intro n h; simp [execute_command, h]
  · intro h; simp [execute_command, h]
  · intro h; simp [execute_command, h]
  · intro m h; cases h

/-- C7 (witness): the four mappings at concrete oracles. -/
theorem C7_witness :
    execute_command (fun _ _ _ => .exited (some 0)) "c" [] [] = ([⟨"c", [], []⟩], .ok ())
    ∧ execute_command (fun _ _ _ => .exited (some 7)) "c" [] [] =
      ([⟨"c", [], []⟩], .error (.commandFailed 7))
    ∧ execute_command (fun _ _ _ => .exited none) "c" [] [] =
      ([⟨"c", [], []⟩], .error (.commandFailed 1))
    ∧ execute_command (fun _ _ _ => .spawnFailed) "c" [] [] =
      ([⟨"c", [], []⟩], .error (.spawnFailed "c")) := by
  refine ⟨(C7_exit_status_mapping (fun _ _ _ => .exited (some 0)) "c" [] []).1 rfl,
    (C7_exit_status_mapping (fun _ _ _ => .exited (some 7)) "c" [] []).2.1 6 rfl,
    (C7_exit_status_mapping (fun _ _ _ => .exited none) "c" [] []).2.2.1 rfl,
    (C7_exit_status_mapping (fun _ _ _ => .spawnFailed) "c" [] []).2.2.2.1 rfl⟩

/-- C10: a Full task with no `dir` whose `task` names itself makes `run`
recurse with identical arguments (one fuel step later the state is the very
same call), and the interpreter never produces a result at any fuel — the
source recursion does not terminate; there is no cycle detection or depth
limit. -/
theorem C10_self_delegation_diverges (g : Globals) (root : Path) :
    (∀ fuel : Nat, execute_task_def g (fuel + 1) (.full self_task) root cfg_self =
      execute_task_def g fuel (.full self_task) root cfg_self)
    ∧ (∀ fuel : Nat, execute_task_def g fuel (.full self_task) root cfg_self = none) := by
  have key : ∀ fuel : Nat, execute_task_def g (fuel + 1) (.full self_task) root cfg_self =
      execute_task_def g fuel (.full self_task) root cfg_self := by
    intro fuel
    cases h : g.fs.configAt root <;>
      simp [execute_task_def, go_execute_full_task, self_task, cfg_self, Config.get_task,
        List.find?, h]
  refine ⟨key, ?_⟩
  intro fuel
  induction fuel with
  | zero => rfl
  | succ n ih => rw [key n]; exact ih

/-- C2 (counterexample): when no nested document exists at the computed
directory, the delegated task does *not* run with working directory `sub`.
In `cfgC2`, `a` sets `dir: sub` and `task: b` and there is no `sub/rnr.yaml`;
the claim says `b`'s command runs in `sub`, but the code passes the original
project root on, so the command runs in the project root. -/
theorem C2_counterexample :
    execute_task_def gOk 5 (.full ⟨none, some "sub", none, none, some "b", none⟩) [] cfgC2 =
      some ([⟨"c", [], []⟩], .ok ())
    ∧ ([] : Path) ≠ ["sub"] := by
  exact ⟨rfl, by decide⟩

/-- C2 (amended): for a task or step with `dir: sub` and `task: build` — if
`sub/rnr.yaml` exists, `build` is resolved in the newly loaded document with
document root `sub`; if it does not exist, `build` is resolved in the
currently-scoped document but the computed directory is discarded: a
delegating task passes its own document root on, and a delegating step passes
the top-level project root on. -/
theorem C2_delegation_probe (g : Globals) (fuel : Nat) (ds : Option String)
    (e : Option EnvMap) (c : Option String) (nm d : String) (root : Path)
    (cfg ncfg : Config) (nt tt : TaskDef) (sc : Option String) (env2 : EnvMap) :
    (g.fs.configAt (path_join root d) = some ncfg → ncfg.get_task nm = some nt →
      execute_full_task g fuel ⟨ds, some d, e, c, some nm, none⟩ root cfg =
        execute_task_def g fuel nt (path_join root d) ncfg)
    ∧ (g.fs.configAt (path_join root d) = none → cfg.get_task nm = some tt →
      execute_full_task g fuel ⟨ds, some d, e, c, some nm, none⟩ root cfg =
        execute_task_def g fuel tt root cfg)
    ∧ (g.fs.configAt (path_join g.topRoot d) = some ncfg → ncfg.get_task nm = some nt →
      execute_step_def g fuel ⟨some d, sc, some nm⟩ root env2 cfg =
        execute_task_def g fuel nt (path_join g.topRoot d) ncfg)
    ∧ (g.fs.configAt (path_join g.topRoot d) = none → cfg.get_task nm = some tt →
      execute_step_def g fuel ⟨some d, sc, some nm⟩ root env2 cfg =
        execute_task_def g fuel tt g.topRoot cfg) := by
  refine ⟨?_, ?_, ?_, ?_⟩ <;> intro h1 h2 <;>
    simp [execute_full_task, go_execute_full_task, execute_step_def, go_execute_step_def, h1, h2]

/-- C2 (witness): with the nested document at `sub`, delegation re-roots there
and runs the nested `b`; from `nosub` (no nested document) it stays in the top
document and keeps the top root. -/
theorem C2_witness :
    (execute_full_task gC2 3 ⟨none, some "sub", none, none, some "b", none⟩ [] cfgC2top =
      execute_task_def gC2 3 (.full ⟨none, none, none, some "cn", none, none⟩) ["sub"] cfgC2nested)
    ∧ (execute_full_task gC2 3 ⟨none, some "nosub", none, none, some "b", none⟩ [] cfgC2top =
      execute_task_def gC2 3 (.full ⟨none, none, none, some "c", none, none⟩) [] cfgC2top) := by
  exact ⟨(C2_delegation_probe gC2 3 none none none "b" "sub" [] cfgC2top cfgC2nested
      (.full ⟨none, none, none, some "cn", none, none⟩)
      (.full ⟨none, none, none, some "c", none, none⟩) none []).1 rfl rfl,
    (C2_delegation_probe gC2 3 none none none "b" "nosub" [] cfgC2top cfgC2nested
      (.full ⟨none, none, none, some "cn", none, none⟩)
      (.full ⟨none, none, none, some "c", none, none⟩) none []).2.1 rfl rfl⟩

/-- Oracle under which the command `bad` fails with exit code 3 and every
other command succeeds. -/
def failBadOracle : String → Path → EnvMap → ProcessOutcome :=
  fun c _ _ => if c = "bad" then .exited (some 3) else .exited (some 0)

/-- Globals for the sequential/parallel failure scenarios. -/
def gBad : Globals := ⟨⟨[]⟩, [], failBadOracle⟩

/-- C5: a task's step list executes strictly in order and aborts at the first
failing entry.  The step loop is what a task with a step list runs; when the
head step (of any shape, a Parallel group included) fails with `e`, the whole
list stops with exactly the head's trace and error, no later step contributing
anything; when the head succeeds, the remaining list runs after it, its trace
appended after the head's complete trace. -/
theorem C5_sequential_first_fail (g : Globals) (fuel : Nat) (s : Step) (rest : List Step)
    (dir : Path) (env : EnvMap) (cfg : Config) (tr : List Invocation)
    (r : Except ExecError Unit)
    (h : execute_step g fuel s dir env cfg = some (tr, r)) :
    (∀ ds c nm, execute_full_task g fuel ⟨ds, none, some env, c, nm, some (s :: rest)⟩ dir cfg =
      execute_steps g fuel (s :: rest) dir env cfg)
    ∧ (∀ e : ExecError, r = .error e →
      execute_steps g fuel (s :: rest) dir env cfg = some (tr, .error e))
    ∧ (r = .ok () →
      execute_steps g fuel (s :: rest) dir env cfg =
        (execute_steps g fuel rest dir env cfg).map (fun p => (tr ++ p.1, p.2))) := by
  have h' : go_execute_step (fun td root cfg2 => execute_task_def g fuel td root cfg2)
      g s dir env cfg = some (tr, r) := h
  refine ⟨?_, ?_, ?_⟩
  · intro ds c nm
    simp [execute_full_task, go_execute_full_task, execute_steps]
  · intro e he
    subst he
    simp [execute_steps, go_execute_steps, h']
  · intro hr
    subst hr
    simp only [execute_steps, go_execute_steps, h']
    cases hrest : go_execute_steps (fun td root cfg2 => execute_task_def g fuel td root cfg2)
        g rest dir env cfg with
    | none => simp
    | some p => cases p with | mk tr2 r2 => simp

/-- C5 (witness): a two-step list whose first command fails with exit code 3
aborts immediately — the second command never runs. -/
theorem C5_witness :
    execute_steps gBad 1 [.simple ⟨none, some "bad", none⟩, .simple ⟨none, some "c2", none⟩]
      [] [] ⟨[]⟩ = some ([⟨"bad", [], []⟩], .error (.commandFailed 3)) := by
  exact (C5_sequential_first_fail gBad 1 (.simple ⟨none, some "bad", none⟩)
    [.simple ⟨none, some "c2", none⟩] [] [] ⟨[]⟩ [⟨"bad", [], []⟩]
    (.error (.commandFailed 3)) rfl).2.1 (.commandFailed 3) rfl

/-- Discriminator for failed step results. -/
def is_err : Except ExecError Unit → Bool :=
  fun r => match r with | .error _ => true | .ok _ => false

/-- Every position of a parallel block yields a result: positional lengths
agree. -/
lemma parallel_steps_length (g : Globals) (fuel : Nat) (dir : Path) (env : EnvMap)
    (cfg : Config) : ∀ (ps : List StepDef) (rs : List RunResult),
    execute_parallel_steps g fuel ps dir env cfg = some rs → rs.length = ps.length := by
  intro ps
  induction ps with
  | nil =>
    intro rs h
    simp [execute_parallel_steps, go_execute_parallel_steps] at h
    simp [← h]
  | cons sd rest ih =>
    intro rs h
    simp only [execute_parallel_steps, go_execute_parallel_steps] at h
    cases h1 : go_execute_step_def (fun td root cfg2 => execute_task_def g fuel td root cfg2)
        g sd dir env cfg with
    | none => simp [h1] at h
    | some r =>
      cases h2 : go_execute_parallel_steps
          (fun td root cfg2 => execute_task_def g fuel td root cfg2) g rest dir env cfg with
      | none => simp [h1, h2] at h
      | some rs2 =>
        simp [h1, h2] at h
        have := ih rs2 h2
        simp [← h, this]

/-- Each position of a parallel block holds exactly that sibling's own run:
no sibling's failure changes another's result. -/
lemma parallel_steps_get (g : Globals) (fuel : Nat) (dir : Path) (env : EnvMap)
    (cfg : Config) : ∀ (ps : List StepDef) (rs : List RunResult),
    execute_parallel_steps g fuel ps dir env cfg = some rs →
    ∀ (i : Nat) (h1 : i < ps.length) (h2 : i < rs.length),
      execute_step_def g fuel (ps.get ⟨i, h1⟩) dir env cfg = some (rs.get ⟨i, h2⟩) := by
  intro ps
  induction ps with
  | nil => intro rs _ i h1; exact absurd h1 (by simp)
  | cons sd rest ih =>
    intro rs h i h1 h2
    simp only [execute_parallel_steps, go_execute_parallel_steps] at h
    cases hd : go_execute_step_def (fun td root cfg2 => execute_task_def g fuel td root cfg2)
        g sd dir env cfg with
    | none => simp [hd] at h
    | some r =>
      cases ht : go_execute_parallel_steps
          (fun td root cfg2 => execute_task_def g fuel td root cfg2) g rest dir env cfg with
      | none => simp [hd, ht] at h
      | some rs2 =>
        simp [hd, ht] at h
        subst h
        cases i with
        | zero => exact hd
        | succ j =>
          exact ih rs2 ht j (by simpa using h1) (by simpa using h2)

/-- Exactly one collected error per failing step result. -/
lemma step_errors_length : ∀ rs : List RunResult,
    (step_errors rs).length = rs.countP (fun r => is_err r.2) := by
  intro rs
  induction rs with
  | nil => rfl
  | cons r rest ih =>
    cases hr : r.2 with
    | ok u => simp [step_errors, List.countP_cons, is_err, hr] at ih ⊢; exact ih
    | error e => simp [step_errors, List.countP_cons, is_err, hr] at ih ⊢; exact ih

/-- No collected errors exactly when every step result succeeded. -/
lemma step_errors_nil_iff : ∀ rs : List RunResult,
    step_errors rs = [] ↔ ∀ r ∈ rs, r.2 = .ok () := by
  intro rs
  induction rs with
  | nil => simp [step_errors]
  | cons r rest ih =>
    cases hr : r.2 with
    | ok u => simp [step_errors, hr] at ih ⊢; exact ih
    | error e => simp [step_errors, hr]

/-- C4: a parallel group runs every sibling to completion regardless of other
siblings' failures (the whole-group trace is the concatenation of every
sibling's full trace, and each position's result is exactly that sibling's own
run); the group succeeds exactly when zero siblings fail; on failure it
returns one aggregate error enumerating the collected errors, with exactly one
collected error per failing sibling — not fewer or more. -/
theorem C4_parallel_aggregate (g : Globals) (fuel : Nat) (ps : List StepDef)
    (dir : Path) (env : EnvMap) (cfg : Config) (rs : List RunResult)
    (h : execute_parallel_steps g fuel ps dir env cfg = some rs) :
    rs.length = ps.length
    ∧ (∀ (i : Nat) (h1 : i < ps.length) (h2 : i < rs.length),
        execute_step_def g fuel (ps.get ⟨i, h1⟩) dir env cfg = some (rs.get ⟨i, h2⟩))
    ∧ execute_parallel g fuel ps dir env cfg =
        some ((rs.map Prod.fst).flatten,
          if (step_errors rs).isEmpty then .ok ()
          else .error (.parallelFailed (step_errors rs)))
    ∧ (step_errors rs).length = rs.countP (fun r => is_err r.2)
    ∧ ((step_errors rs).isEmpty ↔ ∀ r ∈ rs, r.2 = .ok ()) := by
  have h' : go_execute_parallel_steps (fun td root cfg2 => execute_task_def g fuel td root cfg2)
      g ps dir env cfg = some rs := h
  refine ⟨parallel_steps_length g fuel dir env cfg ps rs h,
    parallel_steps_get g fuel dir env cfg ps rs h, ?_,
    step_errors_length rs, ?_⟩
  · simp [execute_parallel, go_execute_parallel, h']
  · rw [List.isEmpty_iff]
    exact step_errors_nil_iff rs

/-- Parallel fixture: three sibling steps, the middle one failing. -/
def psC4 : List StepDef := [⟨none, some "c1", none⟩, ⟨none, some "bad", none⟩, ⟨none, some "c3", none⟩]

/-- Per-sibling results of `psC4` under `gBad`. -/
def rsC4 : List RunResult :=
  [([⟨"c1", [], []⟩], .ok ()), ([⟨"bad", [], []⟩], .error (.commandFailed 3)),
    ([⟨"c3", [], []⟩], .ok ())]

/-- C4 (witness): in a parallel group of three steps whose middle step fails,
the first and third steps' commands still run, and the aggregate error lists
exactly the one failure. -/
theorem C4_witness :
    execute_parallel gBad 1 psC4 [] [] ⟨[]⟩ =
      some ([⟨"c1", [], []⟩, ⟨"bad", [], []⟩, ⟨"c3", [], []⟩],
        .error (.parallelFailed [.commandFailed 3])) := by
  exact ((C4_parallel_aggregate gBad 1 psC4 [] [] ⟨[]⟩ rsC4 rfl).2.2.1).trans (by rfl)

/-- Walking up stops immediately when the starting directory itself holds a
document. -/
lemma find_config_root_here (fs : FS) (cwd : Path) (h : (fs.configAt cwd).isSome) :
    find_config_root fs cwd = some cwd := by
  rw [find_config_root.eq_def]
  simp [h]

/-- The walk-up result is an ancestor (a prefix) of the starting directory and
holds a document. -/
lemma find_config_root_sound (fs : FS) (cwd : Path) : ∀ r : Path,
    find_config_root fs cwd = some r →
    (∃ t, r ++ t = cwd) ∧ (fs.configAt r).isSome := by
  induction cwd using find_config_root.induct fs with
  | case1 p hp =>
    intro r h
    rw [find_config_root.eq_def] at h
    simp [hp] at h
    subst h
    exact ⟨⟨[], by simp⟩, hp⟩
  | case2 hp =>
    intro r h
    rw [find_config_root.eq_def] at h
    simp [hp] at h
  | case3 a rest hp ih =>
    intro r h
    rw [find_config_root.eq_def] at h
    simp [hp] at h
    obtain ⟨⟨t, ht⟩, hr⟩ := ih r h
    refine ⟨⟨t ++ [(a :: rest).getLast (by simp)], ?_⟩, hr⟩
    rw [← List.append_assoc, ht, List.dropLast_append_getLast]

/-- C8 (counterexample): invoked from `p/sub` while the only `rnr.yaml` lives
in `p`, the root context is `p` — not the process's current directory
`p/sub`: shorthand `a`'s command runs in `p`. -/
theorem C8_counterexample :
    run_task fsC8 okOracle 5 ["p", "sub"] "a" = some ([⟨"c", ["p"], []⟩], .ok ())
    ∧ (["p"] : Path) ≠ ["p", "sub"] := by
  constructor
  · simp [run_task, find_config_root.eq_def, FS.configAt, fsC8, List.find?, Config.get_task,
      execute_task_def, execute_command, okOracle]
  · decide

/-- C8 (amended): the root execution context's working directory and document
root are the directory of the nearest `rnr.yaml` found by walking up from the
process's current directory — an ancestor (prefix) of the current directory
holding a document, equal to the current directory exactly when the document
is found right there. -/
theorem C8_root_from_walk_up (fs : FS) (oracle : String → Path → EnvMap → ProcessOutcome)
    (fuel : Nat) (cwd r : Path) (name : String) (cfg : Config) (td : TaskDef) :
    ((fs.configAt cwd).isSome → find_config_root fs cwd = some cwd)
    ∧ (find_config_root fs cwd = some r → (∃ t, r ++ t = cwd) ∧ (fs.configAt r).isSome)
    ∧ (find_config_root fs cwd = some r → fs.configAt r = some cfg →
        cfg.get_task name = some td →
        run_task fs oracle fuel cwd name = execute_task_def ⟨fs, r, oracle⟩ fuel td r cfg) := by
  refine ⟨find_config_root_here fs cwd, find_config_root_sound fs cwd r, ?_⟩
  intro h1 h2 h3
  simp [run_task, h1, h2, h3]

/-- C8 (witness): from `p` itself the walk stops at `p`; from `p/sub` the run
executes task `a` rooted at `p`. -/
theorem C8_witness :
    find_config_root fsC8 ["p"] = some ["p"]
    ∧ run_task fsC8 okOracle 5 ["p", "sub"] "a" =
        execute_task_def ⟨fsC8, ["p"], okOracle⟩ 5 (.shorthand "c") ["p"]
          ⟨[("a", .shorthand "c")]⟩ := by
  exact ⟨(C8_root_from_walk_up fsC8 okOracle 5 ["p"] ["p"] "a" ⟨[("a", .shorthand "c")]⟩
      (.shorthand "c")).1 (by rfl),
    (C8_root_from_walk_up fsC8 okOracle 5 ["p", "sub"] ["p"] "a" ⟨[("a", .shorthand "c")]⟩
      (.shorthand "c")).2.2
      (by simp [find_config_root.eq_def, FS.configAt, fsC8, List.find?]) rfl rfl⟩

/-- C9: the task-name listing is alphabetically sorted, and it is
deterministic in a strong sense: any two enumeration orders of the same
underlying map (the `HashMap` iteration order is arbitrary) produce the
identical listing, so listing the same unmodified document twice yields
identical results. -/
theorem C9_task_names_sorted_deterministic (l1 l2 : List (String × TaskDef))
    (h : l1.Perm l2) :
    List.Sorted (fun a b => a ≤ b) (Config.task_names ⟨l1⟩)
    ∧ Config.task_names ⟨l1⟩ = Config.task_names ⟨l2⟩ := by
  constructor
  · exact List.sorted_insertionSort _ _
  · refine List.eq_of_perm_of_sorted ?_ (List.sorted_insertionSort _ _)
      (List.sorted_insertionSort _ _)
    exact ((List.perm_insertionSort _ _).trans (h.map Prod.fst)).trans
      (List.perm_insertionSort _ _).symm

/-- C9 (witness): a two-task document listed from both enumeration orders. -/
theorem C9_witness :
    List.Sorted (fun a b : String => a ≤ b)
      (Config.task_names ⟨[("zebra", .shorthand "z"), ("alpha", .shorthand "a")]⟩)
    ∧ Config.task_names ⟨[("zebra", .shorthand "z"), ("alpha", .shorthand "a")]⟩ =
      Config.task_names ⟨[("alpha", .shorthand "a"), ("zebra", .shorthand "z")]⟩ := by
  exact C9_task_names_sorted_deterministic _ _ (by decide)

end Rnr
